import Mathlib

/-!
Shallow embedding of the PolymarketAnalyst backtesting engine
(src/analysis/backtester.py) together with the strategy code the
specification's claims touch (strategies/rebalancing_strategy.py,
strategies/avg_arbitrage_strategy.py, and the decision-shape handling
relevant to strategies/hybrid_strategy.py).

Python floats are modelled as rationals, timestamps as rationals (UTC
instants are totally ordered and adding a number of seconds is rational
addition), and the pandas DataFrame of quotes as lists of rows; the
per-timestamp groupby of run_strategy is a list of (timestamp, rows)
groups.  Logging, progress printing, and the transactions_by_market /
pending-summary bookkeeping that only feeds log output are kept only
where they touch observable state.
-/

namespace Polymarket

/-- A timestamp (pandas Timestamp): totally ordered, supports adding
seconds. -/
abbrev Time := ℚ

/-- The traded side of a binary market, the Python strings "Up"/"Down". -/
inductive Side where
  | up
  | down
deriving DecidableEq

/-- MarketID compound key: (TargetTime, Expiration), as produced by
load_data's groupby(['TargetTime', 'Expiration']). -/
abbrev MarketId := Time × Time

/-- One row of the quote CSV (a MarketQuote); only the columns read by the
backtester and the embedded strategies. -/
structure Row where
  timestamp : Time
  targetTime : Time
  expiration : Time
  upAsk : ℚ
  downAsk : ℚ
  upAskLiquidity : ℚ
  downAskLiquidity : ℚ
deriving DecidableEq

/-- The tuple (row['TargetTime'], row['Expiration']). -/
def Row.marketId (r : Row) : MarketId := (r.targetTime, r.expiration)

/-- The ask column selected by side: UpAsk for 'Up', DownAsk for 'Down'. -/
def Row.askOf (r : Row) : Side → ℚ
  | .up => r.upAsk
  | .down => r.downAsk

/-- An open position, the dict appended to self.open_positions. -/
structure Position where
  market_id : MarketId
  side : Side
  quantity : ℚ
  entry_price : ℚ
  expiration : Time
deriving DecidableEq

/-- Winning-side tag of a resolution; err models the string 'Error'
returned when a market id is missing from the grouped history. -/
inductive Winner where
  | up
  | down
  | err
deriving DecidableEq

def Winner.ofSide : Side → Winner
  | .up => .up
  | .down => .down

/-- A transaction-log entry: a Buy (dict with Type 'Buy') or a Resolution
(dict with Type 'Resolution'); resolutions are only appended when the
market's history was found, so their winning side is a genuine Side. -/
inductive Txn where
  | buy (timestamp : Time) (market_id : MarketId) (side : Side)
      (quantity entry_price : ℚ)
  | resolution (timestamp : Time) (market_id : MarketId) (side : Side)
      (quantity entry_price pnl : ℚ) (winning_side : Side)
deriving DecidableEq

/-- Return value of _resolve_single_position. -/
structure ResolvedInfo where
  market_id : MarketId
  side : Side
  quantity : ℚ
  entry_price : ℚ
  pnl : ℚ
  winning_side : Winner
deriving DecidableEq

/-- self.market_history: data grouped by market id, as an association
list (dict insertion order). -/
abbrev MarketHistory := List (MarketId × List Row)

/-- Dictionary lookup self.market_history.get(market_id_tuple). -/
def findMarket (hist : MarketHistory) (market_id : MarketId) :
    Option (List Row) :=
  (hist.find? (fun e => Decidable.decide (e.1 = market_id))).map (·.2)

/-- A strategy as the engine sees it.  decide may update the strategy's
own state (Python strategies mutate self); hasUpdatePortfolio models
hasattr(strategy_instance, 'update_portfolio').  A decision is None or a
4-tuple (side, quantity, entry_price, confidence). -/
structure StrategyImpl (σ : Type) where
  decide : Row → ℚ → σ → Option (Side × ℚ × ℚ × ℚ) × σ
  hasUpdatePortfolio : Bool
  update_portfolio : MarketId → Side → ℚ → ℚ → σ → σ

/-- The mutable state of one Backtester instance during run_strategy,
including the strategy instance's own state. -/
structure BState (σ : Type) where
  capital : ℚ
  open_positions : List Position
  transactions : List Txn
  portfolio_history : List (Time × ℚ)
  risk_events : List (Time × String)
  pending : List (MarketId × ResolvedInfo)
  strat : σ

/-- A freshly constructed Backtester paired with a fresh strategy. -/
def initBState (initial_capital : ℚ) (s : σ) : BState σ :=
  { capital := initial_capital, open_positions := [], transactions := [],
    portfolio_history := [], risk_events := [], pending := [], strat := s }

/-- Winner determination from the last data point of a market
(backtester.py lines 98-109). -/
def determineWinner (last_dp : Row) : Side :=
  if last_dp.upAsk = 0 then .up
  else if last_dp.downAsk = 0 then .down
  else if last_dp.downAsk > last_dp.upAsk then .down
  else .up

/-- _resolve_single_position (backtester.py lines 89-130).  When the
market id is missing from market_history the Python code logs a warning
and returns {'pnl': 0, 'winning_side': 'Error'} without touching capital
or the transaction log; load_data never produces an empty group, so the
empty-rows case is modelled like the missing case. -/
def resolveSingle (hist : MarketHistory) (market_id : MarketId)
    (position : Position) (current_timestamp : Time) (st : BState σ) :
    BState σ × ResolvedInfo :=
  match findMarket hist market_id with
  | none =>
      (st, { market_id := market_id, side := position.side,
             quantity := position.quantity,
             entry_price := position.entry_price, pnl := 0,
             winning_side := .err })
  | some rows =>
    match rows.getLast? with
    | none =>
        (st, { market_id := market_id, side := position.side,
               quantity := position.quantity,
               entry_price := position.entry_price, pnl := 0,
               winning_side := .err })
    | some last_dp =>
      let winning_side := determineWinner last_dp
      let pnl : ℚ :=
        if position.side = winning_side then
          position.quantity * (1 - position.entry_price)
        else
          -(position.quantity * position.entry_price)
      let capital' :=
        if position.side = winning_side then st.capital + position.quantity
        else st.capital
      let txn := Txn.resolution current_timestamp market_id position.side
        position.quantity position.entry_price pnl winning_side
      ({ st with capital := capital',
                 transactions := st.transactions ++ [txn] },
       { market_id := market_id, side := position.side,
         quantity := position.quantity,
         entry_price := position.entry_price, pnl := pnl,
         winning_side := .ofSide winning_side })

/-- One iteration of the expiration loop: resolve a position and queue
the resolved info into pending_market_summaries. -/
def resolveOne (hist : MarketHistory) (current_timestamp : Time)
    (st : BState σ) (position : Position) : BState σ :=
  let r := resolveSingle hist position.market_id position current_timestamp st
  { r.1 with pending := r.1.pending ++ [(position.market_id, r.2)] }

/-- Phase 1 of a timestamp iteration (backtester.py lines 273-292):
resolve every open position with expiration <= current_timestamp in list
order, drop them from open_positions, and, if any was resolved, snapshot
(timestamp, capital) into portfolio_history. -/
def resolveExpiredAt (hist : MarketHistory) (current_timestamp : Time)
    (st : BState σ) : BState σ :=
  let expired := st.open_positions.filter
    (fun p => Decidable.decide (p.expiration ≤ current_timestamp))
  let kept := st.open_positions.filter
    (fun p => !Decidable.decide (p.expiration ≤ current_timestamp))
  let st' := expired.foldl (resolveOne hist current_timestamp) st
  let st'' := { st' with open_positions := kept }
  if expired.isEmpty then st''
  else
    { st'' with portfolio_history :=
        st''.portfolio_history ++ [(current_timestamp, st''.capital)] }

/-- _apply_slippage (backtester.py lines 203-231). -/
def applySlippage (slippage_seconds : ℚ) (hist : MarketHistory)
    (current_timestamp : Time) (market_id : MarketId) (side : Side)
    (entry_price : ℚ) : ℚ :=
  if slippage_seconds ≤ 0 then entry_price
  else
    let slippage_timestamp := current_timestamp + slippage_seconds
    match findMarket hist market_id with
    | none => entry_price
    | some rows =>
      match rows.find?
          (fun r => Decidable.decide (slippage_timestamp ≤ r.timestamp)) with
      | none => entry_price
      | some slippage_row =>
        let slipped_price := slippage_row.askOf side
        if slipped_price > 0 then slipped_price else entry_price

/-- Phase 2 body for one quote row (backtester.py lines 295-328), given
the already-computed decision and post-decide strategy state: reject
expired markets, apply slippage, accept the trade when affordable and
record a risk event otherwise. -/
def processRowWith (strat : StrategyImpl σ) (hist : MarketHistory)
    (slippage_seconds : ℚ) (current_timestamp : Time) (row : Row)
    (st : BState σ) (dec : Option (Side × ℚ × ℚ × ℚ)) (s2 : σ) :
    BState σ :=
  let st1 := { st with strat := s2 }
  match dec with
  | none => st1
  | some (side, quantity, price0, _conf) =>
    if row.expiration ≤ current_timestamp then st1
    else
      let entry_price :=
        applySlippage slippage_seconds hist current_timestamp
          row.marketId side price0
      let cost := quantity * entry_price
      if cost ≤ st1.capital then
        { st1 with
            capital := st1.capital - cost,
            strat :=
              if strat.hasUpdatePortfolio then
                strat.update_portfolio row.marketId side quantity
                  entry_price st1.strat
              else st1.strat,
            open_positions := st1.open_positions ++
              [{ market_id := row.marketId, side := side,
                 quantity := quantity, entry_price := entry_price,
                 expiration := row.expiration }],
            transactions := st1.transactions ++
              [Txn.buy current_timestamp row.marketId side quantity
                entry_price] }
      else
        { st1 with risk_events :=
            st1.risk_events ++ [(current_timestamp, "Insufficient Capital")] }

/-- Phase 2 body for one quote row: call strategy.decide on the row and
the current capital, then handle the returned decision. -/
def processRow (strat : StrategyImpl σ) (hist : MarketHistory)
    (slippage_seconds : ℚ) (current_timestamp : Time) (row : Row)
    (st : BState σ) : BState σ :=
  let dec := strat.decide row st.capital st.strat
  processRowWith strat hist slippage_seconds current_timestamp row st
    dec.1 dec.2

/-- One timestamp iteration of the event loop: expirations first, then
every quote sharing the timestamp in file order. -/
def stepGroup (strat : StrategyImpl σ) (hist : MarketHistory)
    (slippage_seconds : ℚ) (st : BState σ) (group : Time × List Row) :
    BState σ :=
  let st1 := resolveExpiredAt hist group.1 st
  group.2.foldl
    (fun s r => processRow strat hist slippage_seconds group.1 r s) st1

/-- Forced resolution after the last timestamp (backtester.py lines
330-337): every still-open position is resolved at final_timestamp,
unconditionally, and removed. -/
def finalResolve (hist : MarketHistory) (final_timestamp : Time)
    (st : BState σ) : BState σ :=
  let st' := st.open_positions.foldl (resolveOne hist final_timestamp) st
  { st' with open_positions := [] }

/-- run_strategy (backtester.py lines 233-341), minus logging.  When the
data is empty, current_timestamp stays None and Python substitutes
datetime.now(); no position can be open then, so the stand-in value 0 is
never observable. -/
def runStrategy (strat : StrategyImpl σ) (hist : MarketHistory)
    (slippage_seconds : ℚ) (groups : List (Time × List Row))
    (st0 : BState σ) : BState σ :=
  let st := groups.foldl (stepGroup strat hist slippage_seconds) st0
  let final_timestamp :=
    match groups.getLast? with
    | some g => g.1
    | none => 0
  let st' := finalResolve hist final_timestamp st
  { st' with pending := [] }

/-- Per-transaction Buy cost (Quantity * EntryPrice of Buy entries). -/
def buyCost : Txn → ℚ
  | .buy _ _ _ quantity entry_price => quantity * entry_price
  | .resolution _ _ _ _ _ _ _ => 0

/-- Per-transaction resolution payout on a win: the position's quantity
when its side equals the winning side ($1 per share). -/
def winPayout : Txn → ℚ
  | .resolution _ _ side quantity _ _ winning_side =>
      if side = winning_side then quantity else 0
  | .buy _ _ _ _ _ => 0

def buySum (l : List Txn) : ℚ := (l.map buyCost).sum

def winSum (l : List Txn) : ℚ := (l.map winPayout).sum

/-- A strategy whose decisions always carry a nonnegative quantity (true
of every strategy in the repository: quantities are positive ints). -/
def NonnegDecisions (strat : StrategyImpl σ) : Prop :=
  ∀ (row : Row) (cap : ℚ) (s : σ) side q p conf,
    (strat.decide row cap s).1 = some (side, q, p, conf) → 0 ≤ q

/-! ## RebalancingStrategy (strategies/rebalancing_strategy.py)

Quantities are Python ints; they are embedded into ℚ like every other
number.  portfolio_state is a dict with get-or-init-to-zeros access
(_get_or_init_portfolio), modelled as a total map whose absent keys hold
the zero state. -/

namespace Rebalancing

/-- Per-market portfolio state {'qty_yes', 'qty_no', 'cost_yes',
'cost_no'}. -/
structure PortfolioState where
  qty_yes : ℚ
  qty_no : ℚ
  cost_yes : ℚ
  cost_no : ℚ
deriving DecidableEq

def SAFETY_MARGIN_M : ℚ := 0.99
def MAX_TRADE_SIZE : ℚ := 500
def MIN_BALANCE_QTY : ℚ := 1
def MAX_UNHEDGED_DELTA : ℚ := 50
def MIN_LIQUIDITY_MULTIPLIER : ℚ := 3.0

/-- self.portfolio_state with _get_or_init_portfolio semantics. -/
abbrev State := MarketId → PortfolioState

def initState : State := fun _ =>
  { qty_yes := 0, qty_no := 0, cost_yes := 0, cost_no := 0 }

/-- check_delta_constraint (rebalancing_strategy.py lines 71-83); the
identical method also appears in hybrid_strategy.py lines 92-98 with the
same MAX_UNHEDGED_DELTA = 50. -/
def check_delta_constraint (portfolio : PortfolioState)
    (target_side : Side) (qty_to_buy : ℚ) : Bool :=
  let current_delta := portfolio.qty_yes - portfolio.qty_no
  let new_delta :=
    if target_side = .up then current_delta + qty_to_buy
    else current_delta - qty_to_buy
  Decidable.decide (|new_delta| ≤ MAX_UNHEDGED_DELTA)

/-- check_liquidity_constraint (lines 55-69): the opposite side's ask
liquidity must cover qty_to_buy * MIN_LIQUIDITY_MULTIPLIER. -/
def check_liquidity_constraint (market_data_point : Row)
    (target_side : Side) (qty_to_buy : ℚ) : Bool :=
  let required_liquidity := qty_to_buy * MIN_LIQUIDITY_MULTIPLIER
  let available_liquidity :=
    if target_side = .up then market_data_point.downAskLiquidity
    else market_data_point.upAskLiquidity
  Decidable.decide (available_liquidity ≥ required_liquidity)

/-- check_safety_margin (lines 85-111). -/
def check_safety_margin (portfolio : PortfolioState) (target_side : Side)
    (qty_to_buy price : ℚ) : Bool :=
  let avg_p_yes :=
    if portfolio.qty_yes > 0 then portfolio.cost_yes / portfolio.qty_yes
    else 0
  let avg_p_no :=
    if portfolio.qty_no > 0 then portfolio.cost_no / portfolio.qty_no
    else 0
  match target_side with
  | .up =>
    let new_cost_yes := portfolio.cost_yes + qty_to_buy * price
    let new_qty_yes := portfolio.qty_yes + qty_to_buy
    if new_qty_yes = 0 then false
    else Decidable.decide
      (new_cost_yes / new_qty_yes + avg_p_no < SAFETY_MARGIN_M)
  | .down =>
    let new_cost_no := portfolio.cost_no + qty_to_buy * price
    let new_qty_no := portfolio.qty_no + qty_to_buy
    if new_qty_no = 0 then false
    else Decidable.decide
      (avg_p_yes + new_cost_no / new_qty_no < SAFETY_MARGIN_M)

/-- The balanced-portfolio search loop of decide (lines 136-159): try the
largest quantity first, decrementing while any constraint fails. -/
def balancedLoop (portfolio : PortfolioState) (market_data_point : Row)
    (current_capital price_yes price_no : ℚ) (qty_to_try : ℚ) :
    Option (Side × ℚ × ℚ × ℚ) :=
  if h : qty_to_try > 0 then
    let side_to_buy := if price_yes > price_no then Side.up else Side.down
    let price_to_buy := if side_to_buy = .up then price_yes else price_no
    let cost := qty_to_try * price_to_buy
    if cost > current_capital then
      balancedLoop portfolio market_data_point current_capital price_yes
        price_no (qty_to_try - 1)
    else if !check_delta_constraint portfolio side_to_buy qty_to_try then
      balancedLoop portfolio market_data_point current_capital price_yes
        price_no (qty_to_try - 1)
    else if !check_liquidity_constraint market_data_point side_to_buy
        qty_to_try then
      balancedLoop portfolio market_data_point current_capital price_yes
        price_no (qty_to_try - 1)
    else if check_safety_margin portfolio side_to_buy qty_to_try
        price_to_buy then
      some (side_to_buy, qty_to_try, price_to_buy, 1.0)
    else
      balancedLoop portfolio market_data_point current_capital price_yes
        price_no (qty_to_try - 1)
  else none
termination_by (⌈qty_to_try⌉).toNat
decreasing_by
  all_goals
    have h1 : (0 : ℤ) < ⌈qty_to_try⌉ := Int.ceil_pos.mpr h
    rw [show qty_to_try - 1 = qty_to_try - (1 : ℤ) by push_cast; ring,
      Int.ceil_sub_int]
    omega

/-- The rebalancing search loop of decide (lines 187-205). -/
def rebalanceLoop (portfolio : PortfolioState) (market_data_point : Row)
    (current_capital : ℚ) (target_side : Side) (target_price : ℚ)
    (qty_to_buy : ℚ) : Option (Side × ℚ × ℚ × ℚ) :=
  if h : qty_to_buy > 0 then
    let cost := qty_to_buy * target_price
    if cost > current_capital then
      rebalanceLoop portfolio market_data_point current_capital target_side
        target_price (qty_to_buy - 1)
    else if !check_delta_constraint portfolio target_side qty_to_buy then
      rebalanceLoop portfolio market_data_point current_capital target_side
        target_price (qty_to_buy - 1)
    else if !check_liquidity_constraint market_data_point target_side
        qty_to_buy then
      rebalanceLoop portfolio market_data_point current_capital target_side
        target_price (qty_to_buy - 1)
    else if check_safety_margin portfolio target_side qty_to_buy
        target_price then
      some (target_side, qty_to_buy, target_price, 1.0)
    else
      rebalanceLoop portfolio market_data_point current_capital target_side
        target_price (qty_to_buy - 1)
  else none
termination_by (⌈qty_to_buy⌉).toNat
decreasing_by
  all_goals
    have h1 : (0 : ℤ) < ⌈qty_to_buy⌉ := Int.ceil_pos.mpr h
    rw [show qty_to_buy - 1 = qty_to_buy - (1 : ℤ) by push_cast; ring,
      Int.ceil_sub_int]
    omega

/-- RebalancingStrategy.decide (lines 113-207).  The method never writes
to portfolio_state (only _get_or_init_portfolio reads it, whose inserted
default equals the map's default), so the state comes back unchanged. -/
def decide (market_data_point : Row) (current_capital : ℚ) (s : State) :
    Option (Side × ℚ × ℚ × ℚ) × State :=
  let market_id := market_data_point.marketId
  let portfolio := s market_id
  let qty_yes := portfolio.qty_yes
  let qty_no := portfolio.qty_no
  if qty_yes = qty_no then
    if qty_yes ≥ MAX_TRADE_SIZE then (none, s)
    else
      let price_yes := market_data_point.upAsk
      let price_no := market_data_point.downAsk
      if price_yes > 0 ∧ price_no > 0 ∧
          price_yes + price_no < SAFETY_MARGIN_M then
        (balancedLoop portfolio market_data_point current_capital price_yes
          price_no (MAX_TRADE_SIZE - qty_yes), s)
      else (none, s)
  else
    let quantity_delta := |qty_yes - qty_no|
    if quantity_delta < MIN_BALANCE_QTY then (none, s)
    else
      let price_yes := market_data_point.upAsk
      let price_no := market_data_point.downAsk
      let target :=
        if qty_yes > qty_no then (Side.down, price_no)
        else (Side.up, price_yes)
      if target.2 ≤ 0 then (none, s)
      else
        -- int(min(quantity_delta, MAX_TRADE_SIZE)): both are Python
        -- ints, so int() is the identity here.
        (rebalanceLoop portfolio market_data_point current_capital target.1
          target.2 (min quantity_delta MAX_TRADE_SIZE), s)

/-- RebalancingStrategy.update_portfolio (lines 209-217). -/
def update_portfolio (market_id : MarketId) (side : Side)
    (quantity price : ℚ) (s : State) : State :=
  fun m =>
    if m = market_id then
      let portfolio := s market_id
      let cost := quantity * price
      match side with
      | .up =>
          { portfolio with qty_yes := portfolio.qty_yes + quantity,
                           cost_yes := portfolio.cost_yes + cost }
      | .down =>
          { portfolio with qty_no := portfolio.qty_no + quantity,
                           cost_no := portfolio.cost_no + cost }
    else s m

/-- The strategy as handed to Backtester.run_strategy. -/
def strategy : StrategyImpl State :=
  { decide := decide, hasUpdatePortfolio := true,
    update_portfolio := update_portfolio }

end Rebalancing

/-! ## AvgArbitrageStrategy (strategies/avg_arbitrage_strategy.py)

This strategy mutates its per-market ledger inside decide itself; it
inherits the base class's no-op update_portfolio.  The defaultdict
market_states is modelled as a total map whose absent keys hold the
default entry. -/

namespace AvgArbitrage

/-- One entry of self.market_states. -/
structure MarketState where
  up_qty : ℚ
  down_qty : ℚ
  up_total_cost : ℚ
  down_total_cost : ℚ
  initial_capital_per_market : Option ℚ
deriving DecidableEq

abbrev State := MarketId → MarketState

def initState : State := fun _ =>
  { up_qty := 0, down_qty := 0, up_total_cost := 0, down_total_cost := 0,
    initial_capital_per_market := none }

def min_imbalance_threshold : ℚ := 5

/-- AvgArbitrageStrategy.decide (lines 22-86) with the constructor
defaults margin=0.01, initial_trade_capital_percentage=0.05,
max_capital_allocation_percentage=0.50 kept as parameters. -/
def decide (margin initial_trade_capital_percentage
    max_capital_allocation_percentage : ℚ) (market_data_point : Row)
    (current_capital : ℚ) (s : State) :
    Option (Side × ℚ × ℚ × ℚ) × State :=
  let market_id := market_data_point.marketId
  let state0 := s market_id
  let state1 :=
    if state0.initial_capital_per_market = none then
      { state0 with initial_capital_per_market := some current_capital }
    else state0
  let write := fun (st : MarketState) (m : MarketId) =>
    if m = market_id then st else s m
  let up_price := market_data_point.upAsk
  let down_price := market_data_point.downAsk
  if up_price = 0 ∨ down_price = 0 then (none, write state1)
  else if state1.up_qty = 0 ∧ state1.down_qty = 0 then
    let qty_to_buy : ℤ :=
      ⌊current_capital * initial_trade_capital_percentage⌋
    if down_price < up_price ∧ 0.4 < down_price ∧ down_price < 0.6 then
      if qty_to_buy > 0 then
        let state2 :=
          { state1 with
              down_qty := state1.down_qty + (qty_to_buy : ℚ),
              down_total_cost :=
                state1.down_total_cost + (qty_to_buy : ℚ) * down_price }
        (some (Side.down, (qty_to_buy : ℚ), down_price, 1.0), write state2)
      else (none, write state1)
    else if up_price < down_price ∧ 0.4 < up_price ∧ up_price < 0.6 then
      if qty_to_buy > 0 then
        let state2 :=
          { state1 with
              up_qty := state1.up_qty + (qty_to_buy : ℚ),
              up_total_cost :=
                state1.up_total_cost + (qty_to_buy : ℚ) * up_price }
        (some (Side.up, (qty_to_buy : ℚ), up_price, 1.0), write state2)
      else (none, write state1)
    else (none, write state1)
  else
    let average_down_cost :=
      if state1.down_qty = 0 then 0
      else state1.down_total_cost / state1.down_qty
    let average_up_cost :=
      if state1.up_qty = 0 then 0
      else state1.up_total_cost / state1.up_qty
    let chosen : ℤ × Option Side × ℚ :=
      if state1.up_qty < state1.down_qty ∧
          average_down_cost + up_price < 1 - margin then
        let numerator := state1.down_qty / (1 + margin) -
          state1.up_total_cost - state1.down_total_cost
        let q : ℤ := ⌊numerator / up_price⌋
        if state1.up_qty + (q : ℚ) >
            state1.down_qty + min_imbalance_threshold then
          (q, some Side.up, up_price)
        else (q, none, up_price)
      else if state1.down_qty < state1.up_qty ∧
          average_up_cost + down_price < 1 - margin then
        let numerator := state1.up_qty / (1 + margin) -
          state1.down_total_cost - state1.up_total_cost
        let q : ℤ := ⌊numerator / down_price⌋
        if state1.down_qty + (q : ℚ) >
            state1.up_qty + min_imbalance_threshold then
          (q, some Side.down, down_price)
        else (q, none, down_price)
      else (0, none, 0)
    match chosen.2.1 with
    | none => (none, write state1)
    | some side =>
      if chosen.1 > 0 then
        let qty_to_buy := chosen.1
        let price := chosen.2.2
        let projected_total_cost := state1.up_total_cost +
          state1.down_total_cost + (qty_to_buy : ℚ) * price
        -- initial_capital_per_market is always set by this point (the
        -- first access to the market wrote it), so getD 0 never fires.
        if projected_total_cost > max_capital_allocation_percentage *
            (state1.initial_capital_per_market.getD 0) then
          (none, write state1)
        else
          let state2 :=
            match side with
            | .up =>
                { state1 with
                    up_qty := state1.up_qty + (qty_to_buy : ℚ),
                    up_total_cost :=
                      state1.up_total_cost + (qty_to_buy : ℚ) * price }
            | .down =>
                { state1 with
                    down_qty := state1.down_qty + (qty_to_buy : ℚ),
                    down_total_cost :=
                      state1.down_total_cost + (qty_to_buy : ℚ) * price }
          (some (side, (qty_to_buy : ℚ), price, 1.0), write state2)
      else (none, write state1)

/-- The strategy as handed to run_strategy; update_portfolio is the
inherited base-class no-op (base_strategy.py line 5-6), and hasattr
still finds it. -/
def strategy (margin initial_trade_capital_percentage
    max_capital_allocation_percentage : ℚ) : StrategyImpl State :=
  { decide := decide margin initial_trade_capital_percentage
      max_capital_allocation_percentage,
    hasUpdatePortfolio := true,
    update_portfolio := fun _ _ _ _ s => s }

end AvgArbitrage

/-! ## Raw decision handling (run_strategy lines 297-303)

The typed engine above can only be fed None or 4-tuples.  Python,
however, hands run_strategy whatever object strategy.decide returned:
the engine tests its truthiness, rejects expired markets, and then
executes the tuple unpacking
side, quantity, entry_price, _ = trade_decision,
which raises ValueError unless the value is a sequence of exactly four
elements.  This small model captures those lines exactly. -/

namespace RawEngine

/-- A dynamically typed element of a decision tuple. -/
inductive PyObj where
  | str (s : String)
  | num (q : ℚ)
deriving DecidableEq

/-- A raw strategy decision: Python None or a tuple. -/
abbrev RawDecision := Option (List PyObj)

/-- Python truthiness of a decision: None and the empty tuple are falsy,
any non-empty tuple is truthy. -/
def truthy : RawDecision → Bool
  | none => false
  | some xs => !xs.isEmpty

/-- Outcome of lines 299-303 for one decision. -/
inductive Outcome where
  | noTrade
  | rejectedExpired
  | unpacked (side quantity entry_price : PyObj)
  | valueError
deriving DecidableEq

/-- Lines 299-303 of run_strategy: skip falsy decisions, reject expired
markets (before unpacking), then unpack exactly four elements; any other
truthy shape raises ValueError. -/
def decisionStep (current_timestamp row_expiration : Time)
    (trade_decision : RawDecision) : Outcome :=
  if truthy trade_decision then
    if row_expiration ≤ current_timestamp then .rejectedExpired
    else
      match trade_decision with
      | some [side, quantity, entry_price, _] =>
          .unpacked side quantity entry_price
      | _ => .valueError
  else .noTrade

end RawEngine

/-! ## Invariant definitions and concrete demonstration inputs -/

/-- The capital-accounting invariant: capital equals the initial capital
minus all Buy costs plus all winning-resolution payouts recorded so
far. -/
def CapInv (initial_capital : ℚ) (st : BState σ) : Prop :=
  st.capital =
    initial_capital - buySum st.transactions + winSum st.transactions

/-- Capital is nonnegative and every open position has nonnegative
quantity. -/
def NonnegInv (st : BState σ) : Prop :=
  0 ≤ st.capital ∧ ∀ p ∈ st.open_positions, 0 ≤ p.quantity

/-- Quantity contributed by one transaction to the accepted fills of the
given market and side. -/
def fillQty (market_id : MarketId) (side : Side) : Txn → ℚ
  | .buy _ m s q _ => if m = market_id ∧ s = side then q else 0
  | .resolution _ _ _ _ _ _ _ => 0

/-- entry_price * quantity contributed by one transaction to the accepted
fills of the given market and side. -/
def fillCost (market_id : MarketId) (side : Side) : Txn → ℚ
  | .buy _ m s q p => if m = market_id ∧ s = side then q * p else 0
  | .resolution _ _ _ _ _ _ _ => 0

def fillQtySum (market_id : MarketId) (side : Side) (l : List Txn) : ℚ :=
  (l.map (fillQty market_id side)).sum

def fillCostSum (market_id : MarketId) (side : Side) (l : List Txn) : ℚ :=
  (l.map (fillCost market_id side)).sum

/-- The RebalancingStrategy ledger invariant: each per-market quantity
and cost equals the corresponding sum over the accepted fills in the
transaction log. -/
def LedgerInv (st : BState Rebalancing.State) : Prop :=
  ∀ market_id : MarketId,
    (st.strat market_id).qty_yes =
        fillQtySum market_id .up st.transactions ∧
    (st.strat market_id).cost_yes =
        fillCostSum market_id .up st.transactions ∧
    (st.strat market_id).qty_no =
        fillQtySum market_id .down st.transactions ∧
    (st.strat market_id).cost_no =
        fillCostSum market_id .down st.transactions

/-- A strategy (for concrete runs) that always returns the same decision
and needs no state; run_strategy accepts any object with a decide
method. -/
def constStrategy (d : Option (Side × ℚ × ℚ × ℚ)) : StrategyImpl Unit :=
  { decide := fun _ _ s => (d, s), hasUpdatePortfolio := false,
    update_portfolio := fun _ _ _ _ s => s }

/-- Decision quote for the concrete runs: market (0, 10), both asks
0.5. -/
def demoRow : Row :=
  { timestamp := 0, targetTime := 0, expiration := 10, upAsk := 0.5,
    downAsk := 0.5, upAskLiquidity := 100, downAskLiquidity := 100 }

/-- Final quote of market (0, 10): UpAsk collapsed to 0, so 'Up' wins. -/
def demoLastRow : Row :=
  { timestamp := 1, targetTime := 0, expiration := 10, upAsk := 0,
    downAsk := 1, upAskLiquidity := 100, downAskLiquidity := 100 }

/-- Grouped history holding only market (0, 10). -/
def demoHist : MarketHistory := [((0, 10), [demoLastRow])]

/-- An open Up position of 10 shares at entry price 0.5 on market
(0, 10). -/
def demoPosition : Position :=
  { market_id := (0, 10), side := .up, quantity := 10, entry_price := 0.5,
    expiration := 10 }

/-- A quote some seconds later used by the slippage-model witnesses. -/
def demoSlipRow : Row :=
  { timestamp := 2, targetTime := 0, expiration := 10, upAsk := 0.55,
    downAsk := 0.45, upAskLiquidity := 100, downAskLiquidity := 100 }

/-- Grouped history for the slippage-model witnesses. -/
def demoSlipHist : MarketHistory := [((0, 10), [demoSlipRow])]

/-- A quote on an already-expired market: its Expiration (5) is not
after its own timestamp (10). -/
def demoExpiredRow : Row :=
  { timestamp := 10, targetTime := 0, expiration := 5, upAsk := 0.45,
    downAsk := 0.5, upAskLiquidity := 100, downAskLiquidity := 100 }

/-- A quote whose asks are 0, so RebalancingStrategy.decide returns
None on it. -/
def demoZeroAskRow : Row :=
  { timestamp := 0, targetTime := 0, expiration := 10, upAsk := 0,
    downAsk := 0, upAskLiquidity := 100, downAskLiquidity := 100 }

/-! ## Helper lemmas: capital accounting -/

theorem capInv_of_fields {initial_capital : ℚ} {st st2 : BState σ}
    (h : CapInv initial_capital st) (hc : st2.capital = st.capital)
    (ht : st2.transactions = st.transactions) :
    CapInv initial_capital st2 := by
  unfold CapInv at h ⊢
  rw [hc, ht]
  exact h

theorem buySum_append (l l2 : List Txn) :
    buySum (l ++ l2) = buySum l + buySum l2 := by
  simp [buySum]

theorem winSum_append (l l2 : List Txn) :
    winSum (l ++ l2) = winSum l + winSum l2 := by
  simp [winSum]

/-- Case analysis for the engine state returned by resolveSingle: either
the market's history is missing (state untouched) or some side won and
capital plus the transaction log are updated accordingly. -/
theorem resolveSingle_spec (hist : MarketHistory) (market_id : MarketId)
    (position : Position) (ts : Time) (st : BState σ) :
    (resolveSingle hist market_id position ts st).1 = st ∨
    ∃ w : Side,
      (resolveSingle hist market_id position ts st).1 =
        { st with
            capital :=
              if position.side = w then st.capital + position.quantity
              else st.capital,
            transactions := st.transactions ++
              [Txn.resolution ts market_id position.side position.quantity
                position.entry_price
                (if position.side = w then
                  position.quantity * (1 - position.entry_price)
                 else -(position.quantity * position.entry_price)) w] } := by
  unfold resolveSingle
  split
  · exact Or.inl rfl
  · split
    · exact Or.inl rfl
    · rename_i rows last_dp heq
      exact Or.inr ⟨determineWinner last_dp, rfl⟩

theorem capInv_resolveSingle {initial_capital : ℚ} (hist : MarketHistory)
    (market_id : MarketId) (position : Position) (ts : Time)
    {st : BState σ} (h : CapInv initial_capital st) :
    CapInv initial_capital
      (resolveSingle hist market_id position ts st).1 := by
  rcases resolveSingle_spec hist market_id position ts st with heq | ⟨w, heq⟩
  · rw [heq]; exact h
  · unfold CapInv buySum winSum at h ⊢
    rw [heq]
    by_cases hw : position.side = w <;>
      simp [hw, buyCost, winPayout] <;>
      linarith

theorem capInv_resolveOne {initial_capital : ℚ} (hist : MarketHistory)
    (ts : Time) (position : Position) {st : BState σ}
    (h : CapInv initial_capital st) :
    CapInv initial_capital (resolveOne hist ts st position) := by
  unfold resolveOne
  exact capInv_of_fields
    (capInv_resolveSingle hist position.market_id position ts h) rfl rfl

theorem capInv_foldl_resolveOne {initial_capital : ℚ}
    (hist : MarketHistory) (ts : Time) (l : List Position) {st : BState σ}
    (h : CapInv initial_capital st) :
    CapInv initial_capital (l.foldl (resolveOne hist ts) st) := by
  induction l generalizing st with
  | nil => exact h
  | cons p l ih => exact ih (capInv_resolveOne hist ts p h)

theorem capInv_resolveExpiredAt {initial_capital : ℚ}
    (hist : MarketHistory) (ts : Time) {st : BState σ}
    (h : CapInv initial_capital st) :
    CapInv initial_capital (resolveExpiredAt hist ts st) := by
  unfold resolveExpiredAt
  dsimp only
  have h1 := capInv_foldl_resolveOne hist ts
    (st.open_positions.filter
      (fun p => Decidable.decide (p.expiration ≤ ts))) h
  split
  · exact capInv_of_fields h1 rfl rfl
  · exact capInv_of_fields h1 rfl rfl

theorem capInv_processRowWith {initial_capital : ℚ}
    (strat : StrategyImpl σ) (hist : MarketHistory) (slip : ℚ) (ts : Time)
    (row : Row) {st : BState σ} (dec : Option (Side × ℚ × ℚ × ℚ)) (s2 : σ)
    (h : CapInv initial_capital st) :
    CapInv initial_capital
      (processRowWith strat hist slip ts row st dec s2) := by
  cases dec with
  | none => exact capInv_of_fields h rfl rfl
  | some d =>
    obtain ⟨side, quantity, price0, conf⟩ := d
    unfold processRowWith
    dsimp only
    split_ifs with h1 h2 h3
    · exact capInv_of_fields h rfl rfl
    · unfold CapInv buySum winSum at h ⊢
      simp [buyCost, winPayout]
      linarith
    · unfold CapInv buySum winSum at h ⊢
      simp [buyCost, winPayout]
      linarith
    · exact capInv_of_fields h rfl rfl

theorem capInv_processRow {initial_capital : ℚ} (strat : StrategyImpl σ)
    (hist : MarketHistory) (slip : ℚ) (ts : Time) (row : Row)
    {st : BState σ} (h : CapInv initial_capital st) :
    CapInv initial_capital (processRow strat hist slip ts row st) :=
  capInv_processRowWith strat hist slip ts row _ _ h

theorem capInv_foldl_processRow {initial_capital : ℚ}
    (strat : StrategyImpl σ) (hist : MarketHistory) (slip : ℚ) (ts : Time)
    (rows : List Row) {st : BState σ} (h : CapInv initial_capital st) :
    CapInv initial_capital
      (rows.foldl (fun s r => processRow strat hist slip ts r s) st) := by
  induction rows generalizing st with
  | nil => exact h
  | cons r rows ih => exact ih (capInv_processRow strat hist slip ts r h)

theorem capInv_stepGroup {initial_capital : ℚ} (strat : StrategyImpl σ)
    (hist : MarketHistory) (slip : ℚ) (group : Time × List Row)
    {st : BState σ} (h : CapInv initial_capital st) :
    CapInv initial_capital (stepGroup strat hist slip st group) := by
  unfold stepGroup
  exact capInv_foldl_processRow strat hist slip group.1 group.2
    (capInv_resolveExpiredAt hist group.1 h)

theorem capInv_foldl_stepGroup {initial_capital : ℚ}
    (strat : StrategyImpl σ) (hist : MarketHistory) (slip : ℚ)
    (groups : List (Time × List Row)) {st : BState σ}
    (h : CapInv initial_capital st) :
    CapInv initial_capital
      (groups.foldl (stepGroup strat hist slip) st) := by
  induction groups generalizing st with
  | nil => exact h
  | cons g groups ih => exact ih (capInv_stepGroup strat hist slip g h)

theorem capInv_finalResolve {initial_capital : ℚ} (hist : MarketHistory)
    (ts : Time) {st : BState σ} (h : CapInv initial_capital st) :
    CapInv initial_capital (finalResolve hist ts st) := by
  unfold finalResolve
  exact capInv_of_fields
    (capInv_foldl_resolveOne hist ts st.open_positions h) rfl rfl

theorem capInv_runStrategy {initial_capital : ℚ} (strat : StrategyImpl σ)
    (hist : MarketHistory) (slip : ℚ) (groups : List (Time × List Row))
    {st : BState σ} (h : CapInv initial_capital st) :
    CapInv initial_capital (runStrategy strat hist slip groups st) := by
  unfold runStrategy
  exact capInv_of_fields
    (capInv_finalResolve hist _ (capInv_foldl_stepGroup strat hist slip
      groups h)) rfl rfl

/-! ## Helper lemmas: fields resolution leaves untouched -/

theorem resolveOne_fixed (hist : MarketHistory) (ts : Time)
    (st : BState σ) (position : Position) :
    (resolveOne hist ts st position).open_positions = st.open_positions ∧
    (resolveOne hist ts st position).portfolio_history =
        st.portfolio_history ∧
    (resolveOne hist ts st position).risk_events = st.risk_events ∧
    (resolveOne hist ts st position).strat = st.strat := by
  unfold resolveOne
  dsimp only
  rcases resolveSingle_spec hist position.market_id position ts st with
    heq | ⟨w, heq⟩ <;> rw [heq] <;> exact ⟨rfl, rfl, rfl, rfl⟩

theorem foldl_resolveOne_fixed (hist : MarketHistory) (ts : Time)
    (l : List Position) (st : BState σ) :
    ((l.foldl (resolveOne hist ts) st).open_positions =
        st.open_positions ∧
     (l.foldl (resolveOne hist ts) st).portfolio_history =
        st.portfolio_history ∧
     (l.foldl (resolveOne hist ts) st).risk_events = st.risk_events ∧
     (l.foldl (resolveOne hist ts) st).strat = st.strat) := by
  induction l generalizing st with
  | nil => exact ⟨rfl, rfl, rfl, rfl⟩
  | cons p l ih =>
    obtain ⟨a, b, c, d⟩ := ih (resolveOne hist ts st p)
    obtain ⟨a2, b2, c2, d2⟩ := resolveOne_fixed hist ts st p
    exact ⟨a.trans a2, b.trans b2, c.trans c2, d.trans d2⟩

theorem resolveExpiredAt_capital (hist : MarketHistory) (ts : Time)
    (st : BState σ) :
    (resolveExpiredAt hist ts st).capital =
      ((st.open_positions.filter
          (fun p => Decidable.decide (p.expiration ≤ ts))).foldl
        (resolveOne hist ts) st).capital := by
  unfold resolveExpiredAt
  dsimp only
  split <;> rfl

theorem resolveExpiredAt_strat (hist : MarketHistory) (ts : Time)
    (st : BState σ) :
    (resolveExpiredAt hist ts st).strat = st.strat := by
  unfold resolveExpiredAt
  dsimp only
  have h := (foldl_resolveOne_fixed hist ts
    (st.open_positions.filter
      (fun p => Decidable.decide (p.expiration ≤ ts))) st).2.2.2
  split <;> exact h

theorem resolveExpiredAt_history (hist : MarketHistory) (ts : Time)
    (st : BState σ) :
    (resolveExpiredAt hist ts st).portfolio_history =
      if (st.open_positions.filter
          (fun p => Decidable.decide (p.expiration ≤ ts))).isEmpty then
        st.portfolio_history
      else
        st.portfolio_history ++
          [(ts, (resolveExpiredAt hist ts st).capital)] := by
  have hh := (foldl_resolveOne_fixed hist ts
    (st.open_positions.filter
      (fun p => Decidable.decide (p.expiration ≤ ts))) st).2.1
  rw [resolveExpiredAt_capital]
  unfold resolveExpiredAt
  dsimp only
  split
  · exact hh
  · rw [hh]

theorem processRowWith_history (strat : StrategyImpl σ)
    (hist : MarketHistory) (slip : ℚ) (ts : Time) (row : Row)
    (st : BState σ) (dec : Option (Side × ℚ × ℚ × ℚ)) (s2 : σ) :
    (processRowWith strat hist slip ts row st dec s2).portfolio_history =
      st.portfolio_history := by
  cases dec with
  | none => rfl
  | some d =>
    obtain ⟨side, quantity, price0, conf⟩ := d
    unfold processRowWith
    dsimp only
    split_ifs <;> rfl

theorem processRow_history (strat : StrategyImpl σ)
    (hist : MarketHistory) (slip : ℚ) (ts : Time) (row : Row)
    (st : BState σ) :
    (processRow strat hist slip ts row st).portfolio_history =
      st.portfolio_history :=
  processRowWith_history strat hist slip ts row st _ _

theorem foldl_processRow_history (strat : StrategyImpl σ)
    (hist : MarketHistory) (slip : ℚ) (ts : Time) (rows : List Row)
    (st : BState σ) :
    ((rows.foldl (fun s r => processRow strat hist slip ts r s)
        st).portfolio_history) = st.portfolio_history := by
  induction rows generalizing st with
  | nil => rfl
  | cons r rows ih =>
    exact (ih (processRow strat hist slip ts r st)).trans
      (processRow_history strat hist slip ts r st)

theorem finalResolve_history (hist : MarketHistory) (ts : Time)
    (st : BState σ) :
    (finalResolve hist ts st).portfolio_history =
      st.portfolio_history := by
  unfold finalResolve
  dsimp only
  exact (foldl_resolveOne_fixed hist ts st.open_positions st).2.1

/-! ## Helper lemmas: nonnegative capital -/

theorem nonneg_resolveOne (hist : MarketHistory) (ts : Time)
    (position : Position) {st : BState σ}
    (hq : 0 ≤ position.quantity) (h : NonnegInv st) :
    NonnegInv (resolveOne hist ts st position) := by
  obtain ⟨hc, hp⟩ := h
  unfold resolveOne
  dsimp only
  rcases resolveSingle_spec hist position.market_id position ts st with
    heq | ⟨w, heq⟩ <;> rw [heq]
  · exact ⟨hc, hp⟩
  · refine ⟨?_, hp⟩
    by_cases hw : position.side = w <;> simp [hw] <;> linarith

theorem nonneg_foldl_resolveOne (hist : MarketHistory) (ts : Time)
    (l : List Position) {st : BState σ}
    (hl : ∀ p ∈ l, 0 ≤ p.quantity) (h : NonnegInv st) :
    NonnegInv (l.foldl (resolveOne hist ts) st) := by
  induction l generalizing st with
  | nil => exact h
  | cons p l ih =>
    exact ih (fun q hq => hl q (List.mem_cons_of_mem p hq))
      (nonneg_resolveOne hist ts p (hl p (List.mem_cons_self p l)) h)

theorem nonneg_resolveExpiredAt (hist : MarketHistory) (ts : Time)
    {st : BState σ} (h : NonnegInv st) :
    NonnegInv (resolveExpiredAt hist ts st) := by
  obtain ⟨hc, hp⟩ := h
  have hfold : NonnegInv
      ((st.open_positions.filter
        (fun p => Decidable.decide (p.expiration ≤ ts))).foldl
        (resolveOne hist ts) st) :=
    nonneg_foldl_resolveOne hist ts _
      (fun p hmem => hp p (List.mem_of_mem_filter hmem)) ⟨hc, hp⟩
  unfold resolveExpiredAt
  dsimp only
  split
  · exact ⟨hfold.1, fun p hmem => hp p (List.mem_of_mem_filter hmem)⟩
  · exact ⟨hfold.1, fun p hmem => hp p (List.mem_of_mem_filter hmem)⟩

theorem nonneg_processRowWith (strat : StrategyImpl σ)
    (hist : MarketHistory) (slip : ℚ) (ts : Time) (row : Row)
    {st : BState σ} (dec : Option (Side × ℚ × ℚ × ℚ)) (s2 : σ)
    (hdec : ∀ side q p c, dec = some (side, q, p, c) → 0 ≤ q)
    (h : NonnegInv st) :
    NonnegInv (processRowWith strat hist slip ts row st dec s2) := by
  obtain ⟨hc, hp⟩ := h
  cases dec with
  | none => exact ⟨hc, hp⟩
  | some d =>
    obtain ⟨side, quantity, price0, conf⟩ := d
    have hq : 0 ≤ quantity := hdec side quantity price0 conf rfl
    unfold processRowWith
    dsimp only
    split_ifs with h1 h2 h3
    · exact ⟨hc, hp⟩
    · refine ⟨?_, fun p hmem => ?_⟩
      · show 0 ≤ st.capital -
          quantity * applySlippage slip hist ts row.marketId side price0
        linarith
      · rcases List.mem_append.mp hmem with hmem2 | hmem2
        · exact hp p hmem2
        · rw [List.mem_singleton.mp hmem2]
          exact hq
    · refine ⟨?_, fun p hmem => ?_⟩
      · show 0 ≤ st.capital -
          quantity * applySlippage slip hist ts row.marketId side price0
        linarith
      · rcases List.mem_append.mp hmem with hmem2 | hmem2
        · exact hp p hmem2
        · rw [List.mem_singleton.mp hmem2]
          exact hq
    · exact ⟨hc, hp⟩

theorem nonneg_processRow (strat : StrategyImpl σ) (hist : MarketHistory)
    (slip : ℚ) (ts : Time) (row : Row) {st : BState σ}
    (hnn : NonnegDecisions strat) (h : NonnegInv st) :
    NonnegInv (processRow strat hist slip ts row st) :=
  nonneg_processRowWith strat hist slip ts row _ _
    (fun side q p c hsome => hnn row st.capital st.strat side q p c hsome)
    h

theorem nonneg_foldl_processRow (strat : StrategyImpl σ)
    (hist : MarketHistory) (slip : ℚ) (ts : Time) (rows : List Row)
    {st : BState σ} (hnn : NonnegDecisions strat) (h : NonnegInv st) :
    NonnegInv
      (rows.foldl (fun s r => processRow strat hist slip ts r s) st) := by
  induction rows generalizing st with
  | nil => exact h
  | cons r rows ih =>
    exact ih (nonneg_processRow strat hist slip ts r hnn h)

theorem nonneg_stepGroup (strat : StrategyImpl σ) (hist : MarketHistory)
    (slip : ℚ) (group : Time × List Row) {st : BState σ}
    (hnn : NonnegDecisions strat) (h : NonnegInv st) :
    NonnegInv (stepGroup strat hist slip st group) := by
  unfold stepGroup
  exact nonneg_foldl_processRow strat hist slip group.1 group.2 hnn
    (nonneg_resolveExpiredAt hist group.1 h)

theorem nonneg_foldl_stepGroup (strat : StrategyImpl σ)
    (hist : MarketHistory) (slip : ℚ) (groups : List (Time × List Row))
    {st : BState σ} (hnn : NonnegDecisions strat) (h : NonnegInv st) :
    NonnegInv (groups.foldl (stepGroup strat hist slip) st) := by
  induction groups generalizing st with
  | nil => exact h
  | cons g groups ih =>
    exact ih (nonneg_stepGroup strat hist slip g hnn h)

theorem nonneg_finalResolve (hist : MarketHistory) (ts : Time)
    {st : BState σ} (h : NonnegInv st) :
    NonnegInv (finalResolve hist ts st) := by
  have hfold := nonneg_foldl_resolveOne hist ts st.open_positions
    (fun p hmem => h.2 p hmem) h
  unfold finalResolve
  dsimp only
  exact ⟨hfold.1, fun p hmem => absurd hmem (List.not_mem_nil p)⟩

theorem nonneg_runStrategy (strat : StrategyImpl σ)
    (hist : MarketHistory) (slip : ℚ) (groups : List (Time × List Row))
    {st : BState σ} (hnn : NonnegDecisions strat) (h : NonnegInv st) :
    NonnegInv (runStrategy strat hist slip groups st) := by
  unfold runStrategy
  dsimp only
  have h1 := nonneg_finalResolve hist
    (match groups.getLast? with | some g => g.1 | none => 0)
    (nonneg_foldl_stepGroup strat hist slip groups hnn h)
  exact ⟨h1.1, h1.2⟩

/-! ## Helper lemmas: RebalancingStrategy ledger -/

theorem ledgerInv_of_fields {st st2 : BState Rebalancing.State}
    (h : LedgerInv st) (hs : st2.strat = st.strat)
    (ht : st2.transactions = st.transactions) : LedgerInv st2 := by
  intro market_id
  rw [hs, ht]
  exact h market_id

theorem ledger_resolveOne (hist : MarketHistory) (ts : Time)
    (position : Position) {st : BState Rebalancing.State}
    (h : LedgerInv st) : LedgerInv (resolveOne hist ts st position) := by
  unfold resolveOne
  dsimp only
  rcases resolveSingle_spec hist position.market_id position ts st with
    heq | ⟨w, heq⟩ <;> rw [heq]
  · exact ledgerInv_of_fields h rfl rfl
  · intro market_id
    obtain ⟨e1, e2, e3, e4⟩ := h market_id
    refine ⟨?_, ?_, ?_, ?_⟩ <;>
      simp [fillQtySum, fillCostSum, fillQty, fillCost, e1, e2, e3, e4]

theorem ledger_foldl_resolveOne (hist : MarketHistory) (ts : Time)
    (l : List Position) {st : BState Rebalancing.State}
    (h : LedgerInv st) :
    LedgerInv (l.foldl (resolveOne hist ts) st) := by
  induction l generalizing st with
  | nil => exact h
  | cons p l ih => exact ih (ledger_resolveOne hist ts p h)

theorem ledger_resolveExpiredAt (hist : MarketHistory) (ts : Time)
    {st : BState Rebalancing.State} (h : LedgerInv st) :
    LedgerInv (resolveExpiredAt hist ts st) := by
  unfold resolveExpiredAt
  dsimp only
  have h1 := ledger_foldl_resolveOne hist ts
    (st.open_positions.filter
      (fun p => Decidable.decide (p.expiration ≤ ts))) h
  split
  · exact ledgerInv_of_fields h1 rfl rfl
  · exact ledgerInv_of_fields h1 rfl rfl

/-- RebalancingStrategy.decide never writes the strategy state. -/
theorem rebalancing_decide_state (row : Row) (cap : ℚ)
    (s : Rebalancing.State) : (Rebalancing.decide row cap s).2 = s := by
  unfold Rebalancing.decide
  dsimp only
  split_ifs <;> rfl

theorem ledger_processRow (hist : MarketHistory) (slip : ℚ) (ts : Time)
    (row : Row) {st : BState Rebalancing.State} (h : LedgerInv st) :
    LedgerInv (processRow Rebalancing.strategy hist slip ts row st) := by
  unfold processRow
  dsimp only
  have hstate :
      (Rebalancing.strategy.decide row st.capital st.strat).2 =
        st.strat :=
    rebalancing_decide_state row st.capital st.strat
  cases hd : (Rebalancing.strategy.decide row st.capital st.strat).1 with
  | none =>
    unfold processRowWith
    dsimp only
    exact ledgerInv_of_fields h hstate rfl
  | some d =>
    obtain ⟨side, q, p, c⟩ := d
    unfold processRowWith
    dsimp only
    split_ifs with h1 h2 h3
    · exact ledgerInv_of_fields h hstate rfl
    · intro market_id
      obtain ⟨e1, e2, e3, e4⟩ := h market_id
      by_cases hmid : market_id = row.marketId
      · subst hmid
        cases side <;>
          refine ⟨?_, ?_, ?_, ?_⟩ <;>
            simp [Rebalancing.strategy, Rebalancing.update_portfolio,
              rebalancing_decide_state, fillQtySum, fillCostSum, fillQty,
              fillCost, e1, e2, e3, e4]
      · have hmid2 : ¬ row.marketId = market_id :=
          fun hh => hmid hh.symm
        cases side <;>
          refine ⟨?_, ?_, ?_, ?_⟩ <;>
            simp [Rebalancing.strategy, Rebalancing.update_portfolio,
              rebalancing_decide_state, hmid, hmid2, fillQtySum,
              fillCostSum, fillQty, fillCost, e1, e2, e3, e4]
    · exact absurd rfl h3
    · exact ledgerInv_of_fields h hstate rfl

theorem ledger_foldl_processRow (hist : MarketHistory) (slip : ℚ)
    (ts : Time) (rows : List Row) {st : BState Rebalancing.State}
    (h : LedgerInv st) :
    LedgerInv (rows.foldl
      (fun s r => processRow Rebalancing.strategy hist slip ts r s)
      st) := by
  induction rows generalizing st with
  | nil => exact h
  | cons r rows ih => exact ih (ledger_processRow hist slip ts r h)

theorem ledger_stepGroup (hist : MarketHistory) (slip : ℚ)
    (group : Time × List Row) {st : BState Rebalancing.State}
    (h : LedgerInv st) :
    LedgerInv (stepGroup Rebalancing.strategy hist slip st group) := by
  unfold stepGroup
  exact ledger_foldl_processRow hist slip group.1 group.2
    (ledger_resolveExpiredAt hist group.1 h)

theorem ledger_foldl_stepGroup (hist : MarketHistory) (slip : ℚ)
    (groups : List (Time × List Row)) {st : BState Rebalancing.State}
    (h : LedgerInv st) :
    LedgerInv
      (groups.foldl (stepGroup Rebalancing.strategy hist slip) st) := by
  induction groups generalizing st with
  | nil => exact h
  | cons g groups ih => exact ih (ledger_stepGroup hist slip g h)

theorem ledger_finalResolve (hist : MarketHistory) (ts : Time)
    {st : BState Rebalancing.State} (h : LedgerInv st) :
    LedgerInv (finalResolve hist ts st) := by
  unfold finalResolve
  dsimp only
  exact ledgerInv_of_fields
    (ledger_foldl_resolveOne hist ts st.open_positions h) rfl rfl

theorem ledger_runStrategy (hist : MarketHistory) (slip : ℚ)
    (groups : List (Time × List Row)) {st : BState Rebalancing.State}
    (h : LedgerInv st) :
    LedgerInv (runStrategy Rebalancing.strategy hist slip groups st) := by
  unfold runStrategy
  dsimp only
  exact ledgerInv_of_fields
    (ledger_finalResolve hist _ (ledger_foldl_stepGroup hist slip groups
      h)) rfl rfl

/-- Evaluation of resolveSingle when the market's history is present and
non-empty. -/
theorem resolveSingle_found (hist : MarketHistory) (market_id : MarketId)
    (position : Position) (ts : Time) (st : BState σ) (rows : List Row)
    (last_dp : Row) (hfind : findMarket hist market_id = some rows)
    (hlast : rows.getLast? = some last_dp) :
    resolveSingle hist market_id position ts st =
      ({ st with
          capital :=
            if position.side = determineWinner last_dp then
              st.capital + position.quantity
            else st.capital,
          transactions := st.transactions ++
            [Txn.resolution ts market_id position.side position.quantity
              position.entry_price
              (if position.side = determineWinner last_dp then
                position.quantity * (1 - position.entry_price)
               else -(position.quantity * position.entry_price))
              (determineWinner last_dp)] },
       { market_id := market_id, side := position.side,
         quantity := position.quantity,
         entry_price := position.entry_price,
         pnl :=
           if position.side = determineWinner last_dp then
             position.quantity * (1 - position.entry_price)
           else -(position.quantity * position.entry_price),
         winning_side := Winner.ofSide (determineWinner last_dp) }) := by
  unfold resolveSingle
  split
  · rename_i h1
    rw [hfind] at h1
    simp at h1
  · rename_i rows2 h1
    rw [hfind] at h1
    injection h1 with h1
    subst h1
    split
    · rename_i h2
      rw [hlast] at h2
      simp at h2
    · rename_i last2 h2
      rw [hlast] at h2
      injection h2 with h2
      subst h2
      rfl

/-! ## Claim theorems -/

/-- C1: Capital conservation: for every run of Backtester.run_strategy
over any loaded quote data and any strategy, the final capital equals the
initial capital minus the sum of all Buy transaction costs (quantity
times executed entry price) plus the sum of resolution payouts on wins
(the position's quantity, at one dollar per share, for each Resolution
whose position side equals the winning side). -/
theorem capital_conservation (σ : Type) (strat : StrategyImpl σ)
    (hist : MarketHistory) (slippage_seconds : ℚ)
    (groups : List (Time × List Row)) (initial_capital : ℚ) (s0 : σ) :
    (runStrategy strat hist slippage_seconds groups
        (initBState initial_capital s0)).capital =
      initial_capital
        - buySum (runStrategy strat hist slippage_seconds groups
            (initBState initial_capital s0)).transactions
        + winSum (runStrategy strat hist slippage_seconds groups
            (initBState initial_capital s0)).transactions := by
  have h0 : CapInv initial_capital (initBState initial_capital s0) := by
    simp [CapInv, initBState, buySum, winSum]
  exact capInv_runStrategy strat hist slippage_seconds groups h0

/-- C3: No trade after expiration: when a quote is processed at a
timestamp at or after its Expiration, the strategy's decision never
results in an accepted Position: no position is opened, no transaction is
appended, capital is unchanged, and no risk event is recorded (this
includes a decision arriving exactly when the timestamp equals the
Expiration). -/
theorem no_trade_after_expiration (σ : Type) (strat : StrategyImpl σ)
    (hist : MarketHistory) (slip : ℚ) (ts : Time) (row : Row)
    (st : BState σ) (h : row.expiration ≤ ts) :
    (processRow strat hist slip ts row st).capital = st.capital ∧
    (processRow strat hist slip ts row st).open_positions =
        st.open_positions ∧
    (processRow strat hist slip ts row st).transactions =
        st.transactions ∧
    (processRow strat hist slip ts row st).risk_events =
        st.risk_events := by
  unfold processRow
  dsimp only
  cases hdec : (strat.decide row st.capital st.strat).1 with
  | none => exact ⟨rfl, rfl, rfl, rfl⟩
  | some d =>
    obtain ⟨side, q, p, c⟩ := d
    unfold processRowWith
    dsimp only
    rw [if_pos h]
    exact ⟨rfl, rfl, rfl, rfl⟩

/-- C3 witness: Scenario E at a concrete input: the decision arrives with
current_timestamp equal to the row's Expiration (both 10) and is
rejected with no state change. -/
theorem no_trade_after_expiration_witness :
    (processRow (constStrategy (some (Side.up, 10, 0.5, 1.0))) demoHist 0
        10 demoRow (initBState 100 ())).capital =
      (initBState 100 ()).capital ∧
    (processRow (constStrategy (some (Side.up, 10, 0.5, 1.0))) demoHist 0
        10 demoRow (initBState 100 ())).open_positions =
      (initBState 100 ()).open_positions ∧
    (processRow (constStrategy (some (Side.up, 10, 0.5, 1.0))) demoHist 0
        10 demoRow (initBState 100 ())).transactions =
      (initBState 100 ()).transactions ∧
    (processRow (constStrategy (some (Side.up, 10, 0.5, 1.0))) demoHist 0
        10 demoRow (initBState 100 ())).risk_events =
      (initBState 100 ()).risk_events :=
  no_trade_after_expiration Unit (constStrategy (some (Side.up, 10, 0.5,
    1.0))) demoHist 0 10 demoRow (initBState 100 ())
    (by norm_num [demoRow])

/-- C4: Insufficient-capital atomicity: when a decision's cost (quantity
times slipped price) exceeds the current capital, the trade is rejected
before any mutation (capital, open positions and the transaction log are
unchanged) and an Insufficient Capital risk event is recorded; the run
continues, and with nonnegative decision quantities capital never goes
negative over a whole run. -/
theorem insufficient_capital_atomicity (σ : Type) (strat : StrategyImpl σ)
    (hist : MarketHistory) (slip : ℚ) (groups : List (Time × List Row))
    (initial_capital : ℚ) (s0 : σ) :
    (∀ (ts : Time) (row : Row) (st : BState σ) side q p conf,
      (strat.decide row st.capital st.strat).1 = some (side, q, p, conf) →
      ¬ row.expiration ≤ ts →
      st.capital < q * applySlippage slip hist ts row.marketId side p →
      processRow strat hist slip ts row st =
        { st with strat := (strat.decide row st.capital st.strat).2,
                  risk_events := st.risk_events ++
                    [(ts, "Insufficient Capital")] }) ∧
    (NonnegDecisions strat → 0 ≤ initial_capital →
      0 ≤ (runStrategy strat hist slip groups
        (initBState initial_capital s0)).capital) := by
  constructor
  · intro ts row st side q p conf hdec hexp hcost
    unfold processRow
    dsimp only
    rw [hdec]
    unfold processRowWith
    dsimp only
    rw [if_neg hexp, if_neg (not_le.mpr hcost)]
  · intro hnn hinit
    exact (nonneg_runStrategy strat hist slip groups hnn
      ⟨hinit, by simp [initBState]⟩).1

/-- C4 witness: Scenario C at a concrete input: capital 4, attempted cost
10 times 0.5 equals 5, so the trade is rejected, only a risk event is
appended, and a concrete run keeps capital nonnegative. -/
theorem insufficient_capital_atomicity_witness :
    processRow (constStrategy (some (Side.up, 10, 0.5, 1.0))) demoHist 0 0
        demoRow (initBState 4 ()) =
      { initBState 4 () with
          strat := (),
          risk_events := [((0 : Time), "Insufficient Capital")] } ∧
    0 ≤ (runStrategy (constStrategy (some (Side.up, 10, 0.5, 1.0)))
        demoHist 0 [(0, [demoRow])] (initBState 4 ())).capital := by
  constructor
  · exact (insufficient_capital_atomicity Unit
      (constStrategy (some (Side.up, 10, 0.5, 1.0))) demoHist 0 [] 4
      ()).1 0 demoRow (initBState 4 ()) Side.up 10 0.5 1.0 rfl
      (by norm_num [demoRow])
      (by norm_num [applySlippage, initBState])
  · exact (insufficient_capital_atomicity Unit
      (constStrategy (some (Side.up, 10, 0.5, 1.0))) demoHist 0
      [(0, [demoRow])] 4 ()).2
      (by
        intro row cap s side q p c hsome
        simp [constStrategy] at hsome
        obtain ⟨_, hq, _⟩ := hsome
        rw [← hq]
        norm_num)
      (by norm_num)

/-- C10: Implicit missing-market fallback of the slippage model: if the
market id of an accepted decision is absent from the grouped per-market
quote history, _apply_slippage returns the intended entry price unchanged
(no lookup, no error) even when slippage_seconds is positive. -/
theorem slippage_missing_market (slippage_seconds : ℚ)
    (hist : MarketHistory) (ts : Time) (market_id : MarketId) (side : Side)
    (entry_price : ℚ) (hs : 0 < slippage_seconds)
    (hmiss : findMarket hist market_id = none) :
    applySlippage slippage_seconds hist ts market_id side entry_price =
      entry_price := by
  unfold applySlippage
  rw [if_neg (not_le.mpr hs), hmiss]

/-- C10 witness: against an empty grouped history and slippage of 2
seconds the intended price 0.5 is returned unchanged. -/
theorem slippage_missing_market_witness :
    applySlippage 2 [] 0 (0, 10) Side.up 0.5 = 0.5 :=
  slippage_missing_market 2 [] 0 (0, 10) Side.up 0.5 (by norm_num) rfl

/-- C7: Malformed strategy output, the code evaluated at the failing
input: a falsy decision (None) is treated as no trade, but the truthy
3-tuple ('Up', 10, 0.5), the very shape produced by HybridStrategy.decide
and by the repository's own tests, reaches the 4-element tuple unpacking
of run_strategy line 303 and raises ValueError instead of being treated
as no trade. -/
theorem malformed_decision_step_eval :
    RawEngine.decisionStep 0 10
        (some [RawEngine.PyObj.str "Up", RawEngine.PyObj.num 10,
          RawEngine.PyObj.num 0.5]) = RawEngine.Outcome.valueError ∧
    RawEngine.decisionStep 0 10 none = RawEngine.Outcome.noTrade := by
  constructor
  · simp [RawEngine.decisionStep, RawEngine.truthy]
  · rfl

/-- C2: Resolution Engine contract: for a market whose quote history is
present (and non-empty) and an open Position, resolution determines the
winner from the last quote as: if up_ask = 0 the winner is Up; else if
down_ask = 0 the winner is Down; else if down_ask > up_ask the winner is
Down; else the winner is Up (ties default to Up); and it returns pnl =
quantity * (1 - entry_price) with quantity credited to capital when the
position's side equals the winning side, and pnl = -(quantity *
entry_price) with no capital credit otherwise. -/
theorem resolution_engine_contract (σ : Type) (hist : MarketHistory)
    (market_id : MarketId) (position : Position) (ts : Time)
    (st : BState σ) (rows : List Row) (last_dp : Row) (w : Side)
    (hfind : findMarket hist market_id = some rows)
    (hlast : rows.getLast? = some last_dp)
    (hw : w = if last_dp.upAsk = 0 then Side.up
          else if last_dp.downAsk = 0 then Side.down
          else if last_dp.downAsk > last_dp.upAsk then Side.down
          else Side.up) :
    (resolveSingle hist market_id position ts st).2.winning_side =
        Winner.ofSide w ∧
    (position.side = w →
      (resolveSingle hist market_id position ts st).2.pnl =
          position.quantity * (1 - position.entry_price) ∧
      (resolveSingle hist market_id position ts st).1.capital =
          st.capital + position.quantity) ∧
    (position.side ≠ w →
      (resolveSingle hist market_id position ts st).2.pnl =
          -(position.quantity * position.entry_price) ∧
      (resolveSingle hist market_id position ts st).1.capital =
          st.capital) := by
  have hw2 : w = determineWinner last_dp := by
    unfold determineWinner
    exact hw
  rw [resolveSingle_found hist market_id position ts st rows last_dp
    hfind hlast]
  subst hw2
  refine ⟨rfl, fun hside => ⟨?_, ?_⟩, fun hside => ⟨?_, ?_⟩⟩
  · show (if position.side = determineWinner last_dp then
        position.quantity * (1 - position.entry_price)
      else -(position.quantity * position.entry_price)) =
      position.quantity * (1 - position.entry_price)
    rw [if_pos hside]
  · show (if position.side = determineWinner last_dp then
        st.capital + position.quantity else st.capital) =
      st.capital + position.quantity
    rw [if_pos hside]
  · show (if position.side = determineWinner last_dp then
        position.quantity * (1 - position.entry_price)
      else -(position.quantity * position.entry_price)) =
      -(position.quantity * position.entry_price)
    rw [if_neg hside]
  · show (if position.side = determineWinner last_dp then
        st.capital + position.quantity else st.capital) = st.capital
    rw [if_neg hside]

/-- C2 witness: the contract applied to the concrete market (0, 10) whose
last quote has UpAsk 0 (winner Up) and an Up position of 10 shares at
entry price 0.5 over capital 100. -/
theorem resolution_engine_contract_witness :
    (resolveSingle demoHist (0, 10) demoPosition 10
        (initBState 100 ())).2.winning_side = Winner.ofSide Side.up ∧
    (demoPosition.side = Side.up →
      (resolveSingle demoHist (0, 10) demoPosition 10
          (initBState 100 ())).2.pnl =
        demoPosition.quantity * (1 - demoPosition.entry_price) ∧
      (resolveSingle demoHist (0, 10) demoPosition 10
          (initBState 100 ())).1.capital =
        (initBState 100 ()).capital + demoPosition.quantity) ∧
    (demoPosition.side ≠ Side.up →
      (resolveSingle demoHist (0, 10) demoPosition 10
          (initBState 100 ())).2.pnl =
        -(demoPosition.quantity * demoPosition.entry_price) ∧
      (resolveSingle demoHist (0, 10) demoPosition 10
          (initBState 100 ())).1.capital =
        (initBState 100 ()).capital) :=
  resolution_engine_contract Unit demoHist (0, 10) demoPosition 10
    (initBState 100 ()) [demoLastRow] demoLastRow Side.up
    (by simp [findMarket, demoHist]) rfl
    (by norm_num [demoLastRow])

/-- C5: Slippage model contract: with slippage_seconds at or below 0 the
executed price equals the decided price unchanged, always; otherwise,
with the market's history present, the first quote at or after
decision_timestamp + slippage_seconds is located, its ask price for the
traded side is returned when that ask is positive, and in every other
case (no such future quote, or a non-positive ask) the intended price is
returned unchanged without error. -/
theorem slippage_model_contract (slippage_seconds : ℚ)
    (hist : MarketHistory) (ts : Time) (market_id : MarketId)
    (side : Side) (entry_price : ℚ) :
    (slippage_seconds ≤ 0 →
      applySlippage slippage_seconds hist ts market_id side entry_price =
        entry_price) ∧
    (0 < slippage_seconds →
      ∀ rows, findMarket hist market_id = some rows →
        (rows.find? (fun r =>
            Decidable.decide (ts + slippage_seconds ≤ r.timestamp)) =
              none →
          applySlippage slippage_seconds hist ts market_id side
            entry_price = entry_price) ∧
        (∀ slippage_row,
          rows.find? (fun r =>
            Decidable.decide (ts + slippage_seconds ≤ r.timestamp)) =
              some slippage_row →
          (0 < slippage_row.askOf side →
            applySlippage slippage_seconds hist ts market_id side
              entry_price = slippage_row.askOf side) ∧
          (¬ 0 < slippage_row.askOf side →
            applySlippage slippage_seconds hist ts market_id side
              entry_price = entry_price))) := by
  constructor
  · intro h
    unfold applySlippage
    rw [if_pos h]
  · intro hs rows hfind
    constructor
    · intro hnone
      unfold applySlippage
      rw [if_neg (not_le.mpr hs), hfind]
      show (match rows.find? (fun r =>
          Decidable.decide (ts + slippage_seconds ≤ r.timestamp)) with
        | none => entry_price
        | some slippage_row =>
          if slippage_row.askOf side > 0 then slippage_row.askOf side
          else entry_price) = entry_price
      rw [hnone]
    · intro slippage_row hr
      constructor
      · intro hpos
        unfold applySlippage
        rw [if_neg (not_le.mpr hs), hfind]
        show (match rows.find? (fun r =>
            Decidable.decide (ts + slippage_seconds ≤ r.timestamp)) with
          | none => entry_price
          | some slippage_row =>
            if slippage_row.askOf side > 0 then slippage_row.askOf side
            else entry_price) = slippage_row.askOf side
        rw [hr]
        show (if slippage_row.askOf side > 0 then slippage_row.askOf side
          else entry_price) = slippage_row.askOf side
        rw [if_pos hpos]
      · intro hneg
        unfold applySlippage
        rw [if_neg (not_le.mpr hs), hfind]
        show (match rows.find? (fun r =>
            Decidable.decide (ts + slippage_seconds ≤ r.timestamp)) with
          | none => entry_price
          | some slippage_row =>
            if slippage_row.askOf side > 0 then slippage_row.askOf side
            else entry_price) = entry_price
        rw [hr]
        show (if slippage_row.askOf side > 0 then slippage_row.askOf side
          else entry_price) = entry_price
        rw [if_neg hneg]

/-- C5 witness: Scenario-B-style concrete inputs: with slippage 0 the
price 0.5 is unchanged, and with slippage 2 the quote 2 seconds later
supplies its UpAsk (0.55). -/
theorem slippage_model_contract_witness :
    applySlippage 0 demoSlipHist 0 (0, 10) Side.up 0.5 = 0.5 ∧
    applySlippage 2 demoSlipHist 0 (0, 10) Side.up 0.5 =
      demoSlipRow.askOf Side.up := by
  constructor
  · exact (slippage_model_contract 0 demoSlipHist 0 (0, 10) Side.up
      0.5).1 le_rfl
  · exact (((slippage_model_contract 2 demoSlipHist 0 (0, 10) Side.up
      0.5).2 (by norm_num) [demoSlipRow]
      (by simp [findMarket, demoSlipHist])).2 demoSlipRow
      (by norm_num [List.find?, demoSlipRow])).1
      (by norm_num [demoSlipRow, Row.askOf])

/-- C6 counterexample: the delta constraint is not monotone in the
candidate quantity on every portfolio state: with qty_yes 0 and qty_no
100, buying Up passes at quantity 60 (new delta -40) but fails at the
smaller quantity 1 (new delta -99). -/
theorem delta_constraint_monotonicity_counterexample :
    Rebalancing.check_delta_constraint
        { qty_yes := 0, qty_no := 100, cost_yes := 0, cost_no := 0 }
        Side.up 60 = true ∧
    (1 : ℚ) ≤ 60 ∧
    Rebalancing.check_delta_constraint
        { qty_yes := 0, qty_no := 100, cost_yes := 0, cost_no := 0 }
        Side.up 1 = false := by
  refine ⟨?_, by norm_num, ?_⟩
  · simp [Rebalancing.check_delta_constraint,
      Rebalancing.MAX_UNHEDGED_DELTA]
    norm_num [abs_le]
  · simp [Rebalancing.check_delta_constraint,
      Rebalancing.MAX_UNHEDGED_DELTA]
    norm_num [abs_le]

/-- C6 amended: for every portfolio state whose pre-trade delta already
satisfies the bound, every side, and every pair of nonnegative candidate
quantities q ≤ Q, if quantity Q passes the delta constraint then
quantity q on the same side also passes it. -/
theorem delta_constraint_monotonic
    (portfolio : Rebalancing.PortfolioState) (target_side : Side)
    (q Q : ℚ)
    (hpre : |portfolio.qty_yes - portfolio.qty_no| ≤
        Rebalancing.MAX_UNHEDGED_DELTA)
    (h0 : 0 ≤ q) (hqQ : q ≤ Q)
    (hQ : Rebalancing.check_delta_constraint portfolio target_side Q =
        true) :
    Rebalancing.check_delta_constraint portfolio target_side q = true := by
  unfold Rebalancing.MAX_UNHEDGED_DELTA at hpre
  unfold Rebalancing.check_delta_constraint
    Rebalancing.MAX_UNHEDGED_DELTA at hQ ⊢
  rw [abs_le] at hpre
  cases target_side <;> simp only [decide_eq_true_eq] at hQ ⊢ <;>
    simp_all [abs_le] <;> constructor <;> linarith

/-- C8 amended: for RebalancingStrategy the per-market PortfolioState is
mutated only through update_portfolio, which the engine calls exactly
once per accepted trade: whenever a row is processed without appending a
transaction (expired market, insufficient capital, or no decision) the
strategy state is unchanged, and over any full run the per-market
quantities and costs equal the sums of quantity and entry_price times
quantity over that market and side's accepted fills.  (AvgArbitrageStrategy
violates the claim: see the counterexample.) -/
theorem portfolio_update_discipline (hist : MarketHistory) (slip : ℚ) :
    (∀ (ts : Time) (row : Row) (st : BState Rebalancing.State),
      (processRow Rebalancing.strategy hist slip ts row st).transactions =
        st.transactions →
      (processRow Rebalancing.strategy hist slip ts row st).strat =
        st.strat) ∧
    (∀ (groups : List (Time × List Row)) (initial_capital : ℚ),
      LedgerInv (runStrategy Rebalancing.strategy hist slip groups
        (initBState initial_capital Rebalancing.initState))) := by
  constructor
  · intro ts row st
    unfold processRow
    dsimp only
    have hstate :
        (Rebalancing.strategy.decide row st.capital st.strat).2 =
          st.strat :=
      rebalancing_decide_state row st.capital st.strat
    cases hd :
        (Rebalancing.strategy.decide row st.capital st.strat).1 with
    | none =>
      intro htx
      exact hstate
    | some d =>
      obtain ⟨side, q, p, c⟩ := d
      unfold processRowWith
      dsimp only
      split_ifs with h1 h2 h3
      · intro htx
        exact hstate
      · intro htx
        exfalso
        have hlen := congrArg List.length htx
        simp at hlen
      · exact absurd rfl h3
      · intro htx
        exact hstate
  · intro groups initial_capital
    apply ledger_runStrategy
    intro market_id
    refine ⟨?_, ?_, ?_, ?_⟩ <;>
      simp [initBState, Rebalancing.initState, fillQtySum, fillCostSum]

/-- C8 witness: on a concrete zero-ask row RebalancingStrategy returns no
decision, no transaction is appended and the strategy state is unchanged;
and after a concrete (empty) run the per-market quantity equals the fill
sum of the transaction log. -/
theorem portfolio_update_discipline_witness :
    (processRow Rebalancing.strategy [] 0 0 demoZeroAskRow
        (initBState 100 Rebalancing.initState)).strat =
      (initBState 100 Rebalancing.initState).strat ∧
    ((runStrategy Rebalancing.strategy [] 0 []
        (initBState 100 Rebalancing.initState)).strat (0, 10)).qty_yes =
      fillQtySum (0, 10) Side.up
        (runStrategy Rebalancing.strategy [] 0 []
          (initBState 100 Rebalancing.initState)).transactions := by
  constructor
  · exact (portfolio_update_discipline [] 0).1 0 demoZeroAskRow
      (initBState 100 Rebalancing.initState)
      (by
        simp [processRow, processRowWith, Rebalancing.strategy,
          Rebalancing.decide, Rebalancing.initState, demoZeroAskRow,
          initBState, Row.marketId, Rebalancing.MAX_TRADE_SIZE,
          Rebalancing.SAFETY_MARGIN_M, Rebalancing.MIN_BALANCE_QTY])
  · exact (((portfolio_update_discipline [] 0).2 [] 100) (0, 10)).1

/-- C8 counterexample: AvgArbitrageStrategy mutates its per-market ledger
inside decide itself, so the ledger changes even when the engine rejects
the decision: on an expired row the trade is rejected (no transaction, no
position) yet the strategy's up_qty for the market jumps from 0 to 5. -/
theorem portfolio_update_discipline_counterexample :
    (processRow (AvgArbitrage.strategy 0.01 0.05 0.5) [] 0 10
        demoExpiredRow
        (initBState 100 AvgArbitrage.initState)).transactions = [] ∧
    (processRow (AvgArbitrage.strategy 0.01 0.05 0.5) [] 0 10
        demoExpiredRow
        (initBState 100 AvgArbitrage.initState)).open_positions = [] ∧
    ((processRow (AvgArbitrage.strategy 0.01 0.05 0.5) [] 0 10
        demoExpiredRow
        (initBState 100 AvgArbitrage.initState)).strat (0, 5)).up_qty =
      5 ∧
    (AvgArbitrage.initState (0, 5)).up_qty = 0 := by
  refine ⟨?_, ?_, ?_, rfl⟩ <;>
    · simp [processRow, processRowWith, AvgArbitrage.strategy,
        AvgArbitrage.decide, AvgArbitrage.initState, demoExpiredRow,
        initBState, Row.marketId]
      norm_num

/-- C9 amended: during the per-timestamp loop a (timestamp, capital)
snapshot is appended to Portfolio History immediately after a batch of
resolutions (exactly when the batch is non-empty) and before any
new-trade evaluation at that timestamp, which never touches the history;
the forced resolution of still-open positions after the last timestamp,
however, appends no snapshot. -/
theorem portfolio_history_snapshots (σ : Type) (strat : StrategyImpl σ)
    (hist : MarketHistory) (slip : ℚ) :
    (∀ (ts : Time) (rows : List Row) (st : BState σ),
      (stepGroup strat hist slip st (ts, rows)).portfolio_history =
        (resolveExpiredAt hist ts st).portfolio_history) ∧
    (∀ (ts : Time) (st : BState σ),
      (resolveExpiredAt hist ts st).portfolio_history =
        if (st.open_positions.filter (fun p =>
            Decidable.decide (p.expiration ≤ ts))).isEmpty then
          st.portfolio_history
        else st.portfolio_history ++
          [(ts, (resolveExpiredAt hist ts st).capital)]) ∧
    (∀ (final_ts : Time) (st : BState σ),
      (finalResolve hist final_ts st).portfolio_history =
        st.portfolio_history) := by
  refine ⟨fun ts rows st => ?_,
    fun ts st => resolveExpiredAt_history hist ts st,
    fun final_ts st => finalResolve_history hist final_ts st⟩
  unfold stepGroup
  dsimp only
  exact foldl_processRow_history strat hist slip ts rows
    (resolveExpiredAt hist ts st)

/-- C9 counterexample: a concrete run in which the forced resolution
after the last timestamp resolves a position (a winning Resolution is
appended to the transaction log) yet Portfolio History stays empty: no
snapshot follows that final batch of resolutions. -/
theorem portfolio_history_snapshots_counterexample :
    (runStrategy (constStrategy (some (Side.up, 10, 0.5, 1.0))) demoHist 0
        [(0, [demoRow])] (initBState 100 ())).transactions =
      [Txn.buy 0 (0, 10) Side.up 10 0.5,
       Txn.resolution 0 (0, 10) Side.up 10 0.5 5 Side.up] ∧
    (runStrategy (constStrategy (some (Side.up, 10, 0.5, 1.0))) demoHist 0
        [(0, [demoRow])] (initBState 100 ())).portfolio_history = [] := by
  constructor
  · simp [runStrategy, stepGroup, resolveExpiredAt, processRow,
      processRowWith, constStrategy, applySlippage, finalResolve,
      resolveOne, resolveSingle, findMarket, determineWinner, demoHist,
      demoRow, demoLastRow, initBState, Row.marketId, List.find?,
      List.getLast?]
    norm_num [resolveOne, resolveSingle, findMarket, determineWinner,
      demoLastRow, List.find?, List.getLast?, Winner.ofSide]
  · simp [runStrategy, stepGroup, resolveExpiredAt, processRow,
      processRowWith, constStrategy, applySlippage, finalResolve,
      resolveOne, resolveSingle, findMarket, determineWinner, demoHist,
      demoRow, demoLastRow, initBState, Row.marketId, List.find?,
      List.getLast?]
    norm_num [resolveOne, resolveSingle, findMarket, determineWinner,
      demoLastRow, List.find?, List.getLast?, Winner.ofSide]

/-- C6 witness: the amended monotonicity applied at a concrete input:
a balanced portfolio passes at quantity 2, hence also at quantity 1. -/
theorem delta_constraint_monotonic_witness :
    Rebalancing.check_delta_constraint
        { qty_yes := 0, qty_no := 0, cost_yes := 0, cost_no := 0 }
        Side.up 1 = true :=
  delta_constraint_monotonic
    { qty_yes := 0, qty_no := 0, cost_yes := 0, cost_no := 0 } Side.up 1 2
    (by norm_num [Rebalancing.MAX_UNHEDGED_DELTA]) (by norm_num)
    (by norm_num)
    (by
      simp [Rebalancing.check_delta_constraint,
        Rebalancing.MAX_UNHEDGED_DELTA]
      norm_num [abs_le])

end Polymarket
